import Mathlib

/-!
# gophish: process entry point (`gophish.go`)

A shallow embedding of `main` from `gophish.go`.  `main` is a straight-line
sequence of calls into other packages, guarded by error checks and by the
`--mode` flag.  It is embedded as a function from an environment (the flag
values and the results the called packages return) to the trace of calls that
`main` makes, together with the way the run ends.

* a call that returns an `error` is recorded in the trace and its result is
  read from the environment;
* `log.Fatal` ends the process: nothing follows it in the trace;
* `go x.Start()` is recorded as the event `Start x` at the point where `main`
  launches it; the launched goroutine runs next to the rest of `main` and can
  end the process through `log.Fatal` while `main` is waiting for the signal
  or is in its `Shutdown` block;
* the signal channel `c` has capacity one and is received from exactly once.
-/

namespace Gophish

/-! ## Constants and flags -/

def modeAll : String := "all"
def modeAdmin : String := "admin"
def modePhish : String := "phish"

/-- Values the `--mode` flag can take: it is declared with
`Enum(modeAll, modeAdmin, modePhish)`, so flag parsing admits no other. -/
inductive RunMode where
  | all
  | admin
  | phish
  deriving DecidableEq, Repr

/-- String value of the parsed `*mode` flag. -/
def RunMode.str : RunMode → String
  | .all => modeAll
  | .admin => modeAdmin
  | .phish => modePhish

/-! ## Data handed to and returned by the called packages -/

/-- The three services `main` holds a handle to: `adminServer`, `imapMonitor`
and `phishServer`. -/
inductive Service where
  | Admin
  | Monitor
  | Phishing
  deriving DecidableEq, Repr

/-- A mail worker handle (`worker.Worker`); `main` never builds one itself. -/
structure Worker where
  id : Nat
  deriving DecidableEq, Repr

/-- The values of `controllers.AdminServerOption` that `main` can build:
`controllers.WithWorker(w)`, where `none` is Go's `nil`. -/
inductive AdminServerOption where
  | WithWorker (w : Option Worker)
  deriving DecidableEq, Repr

/-- The part of an admin server handle the options act on. -/
structure AdminServer where
  worker : Option Worker
  deriving DecidableEq, Repr

/-- The option `controllers.WithWorker(w)` sets the worker of the server. -/
def AdminServerOption.apply : AdminServerOption → AdminServer → AdminServer
  | .WithWorker w, _ => ⟨w⟩

/-- Modelled from the spec: `controllers.NewAdminServer` is not part of the
source at hand.  The admin service "owns the lifecycle of an optional
embedded Mail-Delivery Worker": the handle starts with the worker the
constructor builds for itself (`defaultWorker`, `none` when it builds none)
and the options `main` passes are applied to it in order. -/
def NewAdminServer (defaultWorker : Option Worker) (options : List AdminServerOption) :
    AdminServer :=
  options.foldl (fun server option => option.apply server) ⟨defaultWorker⟩

/-- The fields of `conf.AdminConf` that `main` reads. -/
structure AdminConf where
  AllowedInternalHosts : List String
  UseTLS : Bool
  deriving DecidableEq, Repr

/-- The fields of the loaded configuration that `main` reads. -/
structure Config where
  AdminConf : AdminConf
  ContactAddress : String
  deriving DecidableEq, Repr

/-- Where an `http.Transport` takes its `DialContext` from: the net/http
default, or `dialer.Dialer().DialContext` (the restricted dialer). -/
inductive DialContext where
  | default
  | restricted
  deriving DecidableEq, Repr

/-- Signals registered with `signal.Notify(c, os.Interrupt)`. -/
inductive Signal where
  | Interrupt
  deriving DecidableEq, Repr

/-- The calls `main` makes, in source order, and two events of the code it
calls: `WorkerNew`, the worker `NewAdminServer` builds for itself, and
`StartFatal`, the `log.Fatal` of a launched `Start`. -/
inductive Event where
  | ReadFile (path : String)
  | Fatal (err : String)
  | KingpinVersion (version : String)
  | HelpFlagShort (name : Char)
  | KingpinParse
  | LoadConfig (path : String)
  | Warnf (msg : String)
  | SetConfigVersion (version : String)
  | SetAllowedHosts (hosts : List String)
  | SetTransport (dial : DialContext)
  | LogSetup
  | ModelsSetup
  | UnlockAllMailLogs
  | NewAdminServer (conf : AdminConf) (options : List AdminServerOption)
  | WorkerNew (w : Worker)
  | SetStoreSecure (secure : Bool)
  | NewPhishingServer
  | NewMonitor
  | Start (s : Service)
  | SignalNotify (sig : Signal)
  | Receive (sig : Signal)
  | Info (msg : String)
  | Shutdown (s : Service)
  | StartFatal (s : Service) (err : String)
  deriving DecidableEq, Repr

/-- How a run of `main` ends: in `log.Fatal`, blocked forever on `<-c`, or by
returning from `main`. -/
inductive Outcome where
  | fatal
  | blocked
  | returned
  deriving DecidableEq, Repr

structure Run where
  trace : List Event
  outcome : Outcome
  deriving DecidableEq, Repr

/-- A launched `Start` that ends the process: the goroutine of `service`
calls `log.Fatal(err)` when `main` has made `after` of the calls that follow
the launches (`signal.Notify`, the receive, `log.Info`, the `Shutdown`
calls). -/
structure StartExit where
  service : Service
  after : Nat
  err : String
  deriving DecidableEq, Repr

/-- Everything `main` receives from outside: the three flags, the result of
each fallible call (`none` is a `nil` error), the number of interrupts
delivered to the process once `signal.Notify` is in place, the error each
service's `Shutdown` returns, the worker `NewAdminServer` builds for itself,
and the launched `Start`, if any, that ends the process. -/
structure Env where
  configPath : String
  disableMailer : Bool
  mode : RunMode
  readVersion : Except String String
  loadConfig : Except String Config
  logSetup : Option String
  modelsSetup : Option String
  unlockAllMailLogs : Option String
  interrupts : Nat
  shutdownErr : Service → Option String
  defaultWorker : Option Worker
  startExit : Option StartExit

/-! ## The signal channel -/

/-- Package `signal` sends to a channel without blocking: the signal is
dropped when the buffer is full. -/
def notifySend (cap : Nat) (buf : List Signal) (s : Signal) : List Signal :=
  if buf.length < cap then buf ++ [s] else buf

/-- Buffer of a channel of capacity `cap` after `n` interrupts were sent. -/
def deliver (cap n : Nat) : List Signal :=
  (List.replicate n Signal.Interrupt).foldl (notifySend cap) []

/-! ## `main` -/

/-- The option list built at `adminOptions := ...`. -/
def adminOptions (disableMailer : Bool) : List AdminServerOption :=
  if disableMailer then [] ++ [AdminServerOption.WithWorker none] else []

/-- The block `// Start servers based on mode`. -/
def startServers (mode : String) : List Event :=
  (if mode = modeAdmin ∨ mode = modeAll then
    [Event.Start Service.Admin, Event.Start Service.Monitor] else []) ++
  (if mode = modePhish ∨ mode = modeAll then
    [Event.Start Service.Phishing] else [])

/-- The calls after `log.Info("CTRL+C Received...")`; the value each
`Shutdown()` returns is not bound to anything. -/
def shutdownServers (mode : String) : List Event :=
  (if mode = modeAdmin ∨ mode = modeAll then
    [Event.Shutdown Service.Admin, Event.Shutdown Service.Monitor] else []) ++
  (if mode = modePhish ∨ mode = modeAll then
    [Event.Shutdown Service.Phishing] else [])

/-- Modelled from the spec: `log.Fatal` belongs to the repository's `logger`
package, which is not part of the source at hand.  A fatal startup error
"terminates the process immediately with a non-zero exit and a human-readable
cause": the error is logged and nothing runs after it. -/
def fatal (t : List Event) (err : String) : Run :=
  ⟨t ++ [Event.Fatal err], Outcome.fatal⟩

/-- The statements of `main` from `c := make(chan os.Signal, 1)` on, run on
their own: `main` blocks on `<-c` until a signal is in the channel, then logs
and calls `Shutdown` on the services of the mode. -/
def awaitAndShutdown (mode : String) (interrupts : Nat) : Run :=
  match (deliver 1 interrupts).head? with
  | none => ⟨[Event.SignalNotify Signal.Interrupt], Outcome.blocked⟩
  | some sig =>
  ⟨[Event.SignalNotify Signal.Interrupt, Event.Receive sig,
      Event.Info "CTRL+C Received... Gracefully shutting down servers"] ++
    shutdownServers mode, Outcome.returned⟩

/-- Modelled from the spec: the bodies of `Start` are not part of the source
at hand.  A service that fails to serve is a fatal failure, which
"terminates the process immediately with a non-zero exit".  `main` launches
each `Start` with `go`, so that `log.Fatal` arrives while `main` runs on:
when the goroutine of a launched service ends the process after `after`
further calls of `main`, the run is those calls followed by the `log.Fatal`.
A service that was not launched has no goroutine, and a run in which `main`
makes fewer than `after` further calls is not cut. -/
def withStartExit (mode : String) (x : Option StartExit) (r : Run) : Run :=
  match x with
  | none => r
  | some x =>
    if Event.Start x.service ∈ startServers mode ∧ x.after ≤ r.trace.length then
      ⟨r.trace.take x.after ++ [Event.StartFatal x.service x.err], Outcome.fatal⟩
    else r

/-- The run of the process after the launches. -/
def afterLaunch (env : Env) : Run :=
  withStartExit env.mode.str env.startExit (awaitAndShutdown env.mode.str env.interrupts)

def main (env : Env) : Run :=
  let t0 := [Event.ReadFile "./VERSION"]
  match env.readVersion with
  | .error err => fatal t0 err
  | .ok version =>
  let t1 := t0 ++ [Event.KingpinVersion version, Event.HelpFlagShort 'h',
    Event.KingpinParse, Event.LoadConfig env.configPath]
  match env.loadConfig with
  | .error err => fatal t1 err
  | .ok conf =>
  let t2 := t1 ++
    (if conf.ContactAddress = "" then
      [Event.Warnf "No contact address has been configured.",
       Event.Warnf "Please consider adding a contact_address entry in your config.json"]
     else []) ++
    [Event.SetConfigVersion version,
     Event.SetAllowedHosts conf.AdminConf.AllowedInternalHosts,
     Event.SetTransport DialContext.restricted,
     Event.LogSetup]
  match env.logSetup with
  | some err => fatal t2 err
  | none =>
  let t3 := t2 ++ [Event.ModelsSetup]
  match env.modelsSetup with
  | some err => fatal t3 err
  | none =>
  let t4 := t3 ++ [Event.UnlockAllMailLogs]
  match env.unlockAllMailLogs with
  | some err => fatal t4 err
  | none =>
  let t5 := t4 ++
    [Event.NewAdminServer conf.AdminConf (adminOptions env.disableMailer)] ++
    (match env.defaultWorker with
     | some w => [Event.WorkerNew w]
     | none => []) ++
    [Event.SetStoreSecure conf.AdminConf.UseTLS,
     Event.NewPhishingServer,
     Event.NewMonitor] ++
    startServers env.mode.str
  let rest := afterLaunch env
  ⟨t5 ++ rest.trace, rest.outcome⟩

/-- All five fallible startup calls return without error. -/
def Env.startupOk (env : Env) : Bool :=
  (match env.readVersion with | .ok _ => true | .error _ => false) &&
  (match env.loadConfig with | .ok _ => true | .error _ => false) &&
  env.logSetup.isNone && env.modelsSetup.isNone && env.unlockAllMailLogs.isNone

def Event.isStart : Event → Bool
  | .Start _ => true
  | _ => false

/-- Construction of a service handle. -/
def Event.isNew : Event → Bool
  | .NewAdminServer _ _ => true
  | .NewPhishingServer => true
  | .NewMonitor => true
  | _ => false

def Event.isWarnf : Event → Bool
  | .Warnf _ => true
  | _ => false

/-- No event satisfying `b` occurs before the first event satisfying `a`:
every `b` is preceded by an `a`. -/
def precededBy (a b : Event → Bool) : List Event → Bool
  | [] => true
  | e :: t => if a e then true else !b e && precededBy a b t

/-- No event satisfying `a` occurs at or after the first event satisfying
`b`. -/
def noneFrom (a b : Event → Bool) (t : List Event) : Bool :=
  (t.dropWhile (fun e => !b e)).all (fun e => !a e)

/-- A default environment: every call succeeds, one interrupt arrives, no
launched `Start` ends the process. -/
def envOk (mode : RunMode) (disableMailer : Bool) : Env where
  configPath := "./config.json"
  disableMailer := disableMailer
  mode := mode
  readVersion := .ok "0.12.1"
  loadConfig := .ok ⟨⟨["10.0.0.5"], false⟩, "admin@example.com"⟩
  logSetup := none
  modelsSetup := none
  unlockAllMailLogs := none
  interrupts := 1
  shutdownErr := fun _ => none
  defaultWorker := some ⟨0⟩
  startExit := none

def Event.isUnlock : Event → Bool
  | .UnlockAllMailLogs => true
  | _ => false

/-- The two calls that configure outbound traffic. -/
def Event.isEgress : Event → Bool
  | .SetAllowedHosts _ => true
  | .SetTransport _ => true
  | _ => false

/-- Services each mode is said to run: `all` runs Admin, Monitor and
Phishing; `admin` runs Admin and Monitor; `phish` runs Phishing. -/
def specMembership : RunMode → List Service
  | .all => [.Admin, .Monitor, .Phishing]
  | .admin => [.Admin, .Monitor]
  | .phish => [.Phishing]

/-- The environment `envOk`, except that `config.LoadConfig` fails. -/
def envNoConfig (mode : RunMode) (disableMailer : Bool) : Env :=
  { envOk mode disableMailer with
    loadConfig := Except.error "open ./config.json: no such file or directory" }

/-- The environment `envOk`, except that `models.UnlockAllMailLogs` fails. -/
def envUnlockFails : Env :=
  { envOk RunMode.all false with unlockAllMailLogs := some "database is locked" }

/-- Construction of the handle of service `s`: `controllers.NewAdminServer`,
`imap.NewMonitor`, `controllers.NewPhishingServer`. -/
def Event.isNewOf : Service → Event → Bool
  | .Admin, .NewAdminServer _ _ => true
  | .Monitor, .NewMonitor => true
  | .Phishing, .NewPhishingServer => true
  | _, _ => false

/-- The calls of `main` up to and including the launches in a run whose five
startup calls succeed (the value of `t5` in `main`). -/
def launched (configPath : String) (disableMailer : Bool) (mode : RunMode)
    (defaultWorker : Option Worker) (version : String) (conf : Config) : List Event :=
  [Event.ReadFile "./VERSION", Event.KingpinVersion version, Event.HelpFlagShort 'h',
    Event.KingpinParse, Event.LoadConfig configPath] ++
  (if conf.ContactAddress = "" then
    [Event.Warnf "No contact address has been configured.",
     Event.Warnf "Please consider adding a contact_address entry in your config.json"]
   else []) ++
  [Event.SetConfigVersion version,
   Event.SetAllowedHosts conf.AdminConf.AllowedInternalHosts,
   Event.SetTransport DialContext.restricted,
   Event.LogSetup, Event.ModelsSetup, Event.UnlockAllMailLogs,
   Event.NewAdminServer conf.AdminConf (adminOptions disableMailer)] ++
  (match defaultWorker with
   | some w => [Event.WorkerNew w]
   | none => []) ++
  [Event.SetStoreSecure conf.AdminConf.UseTLS, Event.NewPhishingServer, Event.NewMonitor] ++
  startServers mode.str

/-- The events that can follow the launches. -/
def Event.isAfterLaunch : Event → Bool
  | .SignalNotify _ => true
  | .Receive _ => true
  | .Info _ => true
  | .Shutdown _ => true
  | .StartFatal _ _ => true
  | _ => false

theorem startServers_all : startServers RunMode.all.str =
    [.Start .Admin, .Start .Monitor, .Start .Phishing] := by decide

theorem startServers_admin : startServers RunMode.admin.str =
    [.Start .Admin, .Start .Monitor] := by decide

theorem startServers_phish : startServers RunMode.phish.str = [.Start .Phishing] := by decide

theorem shutdownServers_all : shutdownServers RunMode.all.str =
    [.Shutdown .Admin, .Shutdown .Monitor, .Shutdown .Phishing] := by decide

theorem shutdownServers_admin : shutdownServers RunMode.admin.str =
    [.Shutdown .Admin, .Shutdown .Monitor] := by decide

theorem shutdownServers_phish : shutdownServers RunMode.phish.str = [.Shutdown .Phishing] := by
  decide

/-! ## Lemmas on the order of events -/

theorem precededBy_append_of_any (a b : Event → Bool) (p t : List Event)
    (hp : precededBy a b p = true) (ha : p.any a = true) :
    precededBy a b (p ++ t) = true := by
  induction p with
  | nil => simp at ha
  | cons e p ih =>
    by_cases hae : a e = true
    · simp [precededBy, hae]
    · simp only [Bool.not_eq_true] at hae
      simp only [precededBy, hae, Bool.false_eq_true, if_false, Bool.and_eq_true] at hp
      simp only [List.any_cons, hae, Bool.false_or] at ha
      simp [precededBy, hae, hp.1, ih hp.2 ha]

theorem noneFrom_of_forall (a b : Event → Bool) (t : List Event)
    (h : ∀ e ∈ t, a e = false) : noneFrom a b t = true := by
  simp only [noneFrom, List.all_eq_true, Bool.not_eq_true']
  intro e he
  exact h e ((List.dropWhile_sublist _).subset he)

theorem noneFrom_append (a b : Event → Bool) (p t : List Event)
    (hp : noneFrom a b p = true) (ht : ∀ e ∈ t, a e = false) :
    noneFrom a b (p ++ t) = true := by
  induction p with
  | nil => simpa using noneFrom_of_forall a b t ht
  | cons e p ih =>
    by_cases hbe : b e = true
    · simp only [noneFrom, List.dropWhile_cons, hbe, Bool.not_true, Bool.false_eq_true,
        if_false, List.all_eq_true, Bool.not_eq_true'] at hp
      simp only [noneFrom, List.cons_append, List.dropWhile_cons, hbe, Bool.not_true,
        Bool.false_eq_true, if_false, List.all_eq_true, Bool.not_eq_true']
      intro x hx
      rcases List.mem_cons.1 hx with rfl | hx
      · exact hp _ (List.mem_cons_self _ _)
      · rcases List.mem_append.1 hx with hx | hx
        · exact hp _ (List.mem_cons_of_mem _ hx)
        · exact ht _ hx
    · simp only [Bool.not_eq_true] at hbe
      have hp2 : noneFrom a b p = true := by
        simpa [noneFrom, List.dropWhile_cons, hbe] using hp
      simpa [noneFrom, List.dropWhile_cons, hbe] using ih hp2

/-- After the launches the run is either the rest of `main`, or a part of it
followed by the `log.Fatal` of a launched `Start`. -/
theorem afterLaunch_shape (env : Env) :
    ((afterLaunch env).trace = (awaitAndShutdown env.mode.str env.interrupts).trace ∧
      (afterLaunch env).outcome = (awaitAndShutdown env.mode.str env.interrupts).outcome) ∨
    (∃ k s err, (afterLaunch env).trace =
        (awaitAndShutdown env.mode.str env.interrupts).trace.take k ++
          [Event.StartFatal s err] ∧
      (afterLaunch env).outcome = Outcome.fatal) := by
  unfold afterLaunch withStartExit
  rcases env.startExit with _ | x
  · exact Or.inl ⟨rfl, rfl⟩
  · dsimp only
    split
    · exact Or.inr ⟨x.after, x.service, x.err, rfl, rfl⟩
    · exact Or.inl ⟨rfl, rfl⟩

theorem mem_shutdownServers (mode : String) (e : Event) (h : e ∈ shutdownServers mode) :
    ∃ s, e = Event.Shutdown s := by
  unfold shutdownServers at h
  simp only [List.mem_append] at h
  rcases h with h | h <;> split_ifs at h <;> simp at h <;>
    first
      | exact ⟨_, h⟩
      | (rcases h with rfl | rfl <;> exact ⟨_, rfl⟩)

theorem mem_awaitAndShutdown (mode : String) (n : Nat) (e : Event)
    (h : e ∈ (awaitAndShutdown mode n).trace) : e.isAfterLaunch = true := by
  unfold awaitAndShutdown at h
  split at h
  · simp at h
    subst h
    rfl
  · simp at h
    rcases h with h | h | h | h
    · subst h; rfl
    · subst h; rfl
    · subst h; rfl
    · obtain ⟨s, rfl⟩ := mem_shutdownServers _ _ h
      rfl

theorem mem_afterLaunch (env : Env) (e : Event) (h : e ∈ (afterLaunch env).trace) :
    e.isAfterLaunch = true := by
  rcases afterLaunch_shape env with ⟨ht, _⟩ | ⟨k, s, err, ht, _⟩
  · rw [ht] at h
    exact mem_awaitAndShutdown _ _ _ h
  · rw [ht, List.mem_append] at h
    rcases h with h | h
    · exact mem_awaitAndShutdown _ _ _ (List.mem_of_mem_take h)
    · simp at h
      subst h
      rfl

theorem not_mem_afterLaunch (env : Env) (e : Event) (h : e.isAfterLaunch = false) :
    e ∉ (afterLaunch env).trace := by
  intro hm
  rw [mem_afterLaunch env e hm] at h
  exact Bool.noConfusion h

theorem count_afterLaunch (env : Env) (e : Event) (h : e.isAfterLaunch = false) :
    List.count e (afterLaunch env).trace = 0 :=
  List.count_eq_zero_of_not_mem (not_mem_afterLaunch env e h)

theorem shutdown_mem_afterLaunch (env : Env) (s : Service)
    (h : Event.Shutdown s ∈ (afterLaunch env).trace) :
    Event.Shutdown s ∈ shutdownServers env.mode.str := by
  have key : ∀ l : List Event, Event.Shutdown s ∈ l →
      l.Sublist (awaitAndShutdown env.mode.str env.interrupts).trace →
      Event.Shutdown s ∈ shutdownServers env.mode.str := by
    intro l hl hsub
    have hm := hsub.subset hl
    unfold awaitAndShutdown at hm
    split at hm
    · simp at hm
    · simpa using hm
  rcases afterLaunch_shape env with ⟨ht, _⟩ | ⟨k, s0, err, ht, _⟩
  · rw [ht] at h
    exact key _ h (List.Sublist.refl _)
  · rw [ht, List.mem_append] at h
    rcases h with h | h
    · exact key _ h (List.take_sublist _ _)
    · simp at h

theorem main_launched (cp : String) (dm : Bool) (m : RunMode) (v : String) (conf : Config)
    (n : Nat) (se : Service → Option String) (dw : Option Worker) (sx : Option StartExit) :
    main ⟨cp, dm, m, Except.ok v, Except.ok conf, none, none, none, n, se, dw, sx⟩ =
      ⟨launched cp dm m dw v conf ++
          (afterLaunch ⟨cp, dm, m, Except.ok v, Except.ok conf, none, none, none, n, se, dw,
            sx⟩).trace,
        (afterLaunch ⟨cp, dm, m, Except.ok v, Except.ok conf, none, none, none, n, se, dw,
          sx⟩).outcome⟩ := by
  simp [main, launched]

theorem all_launched (cp : String) (dm : Bool) (m : RunMode) (dw : Option Worker)
    (v : String) (conf : Config) :
    (launched cp dm m dw v conf).all (fun e => !e.isAfterLaunch) = true := by
  by_cases hc : conf.ContactAddress = "" <;> rcases dw with _ | w <;> cases m <;>
    simp [launched, hc, startServers_all, startServers_admin, startServers_phish,
      Event.isAfterLaunch]

theorem mem_launched (cp : String) (dm : Bool) (m : RunMode) (dw : Option Worker)
    (v : String) (conf : Config) (e : Event) (h : e ∈ launched cp dm m dw v conf) :
    e.isAfterLaunch = false := by
  have hall := all_launched cp dm m dw v conf
  rw [List.all_eq_true] at hall
  simpa using hall e h

theorem shutdownServers_mem_iff (m : RunMode) (s : Service) :
    Event.Shutdown s ∈ shutdownServers m.str ↔ s ∈ specMembership m := by
  cases m <;> cases s <;>
    simp [specMembership, shutdownServers_all, shutdownServers_admin, shutdownServers_phish]

theorem start_mem_launched_iff (cp : String) (dm : Bool) (m : RunMode) (dw : Option Worker)
    (v : String) (conf : Config) (s : Service) :
    Event.Start s ∈ launched cp dm m dw v conf ↔ s ∈ specMembership m := by
  by_cases hc : conf.ContactAddress = "" <;> rcases dw with _ | w <;> cases m <;> cases s <;>
    simp [launched, hc, specMembership, startServers_all, startServers_admin,
      startServers_phish]

/-- C1: when every startup step succeeds, `main` launches `Start` on exactly
the services of the mode: Admin, Monitor and Phishing for `all`; Admin and
Monitor (not Phishing) for `admin`; Phishing only for `phish`; each at most
once. -/
theorem start_set_eq_membership (env : Env) (h : env.startupOk = true) (s : Service) :
    (Event.Start s ∈ (main env).trace ↔ s ∈ specMembership env.mode) ∧
    List.count (Event.Start s) (main env).trace ≤ 1 := by
  obtain ⟨cp, dm, m, rv, lc, ls, ms, ul, n, se, dw, sx⟩ := env
  rcases rv with e | v
  · simp [Env.startupOk] at h
  rcases lc with e | conf
  · simp [Env.startupOk] at h
  rcases ls with _ | e
  swap
  · simp [Env.startupOk] at h
  rcases ms with _ | e
  swap
  · simp [Env.startupOk] at h
  rcases ul with _ | e
  swap
  · simp [Env.startupOk] at h
  rw [main_launched]
  simp only [List.mem_append, List.count_append, count_afterLaunch _ (Event.Start s) rfl,
    not_mem_afterLaunch _ (Event.Start s) rfl, or_false, Nat.add_zero]
  by_cases hc : conf.ContactAddress = "" <;> rcases dw with _ | w <;> cases m <;> cases s <;>
    simp [-List.count_eq_one_of_mem, launched, hc, specMembership, startServers_all,
      startServers_admin, startServers_phish]

theorem start_set_eq_membership_witness :
    (envOk RunMode.phish false).startupOk = true ∧
    ((Event.Start Service.Admin ∈ (main (envOk RunMode.phish false)).trace ↔
        Service.Admin ∈ specMembership (envOk RunMode.phish false).mode) ∧
      List.count (Event.Start Service.Admin) (main (envOk RunMode.phish false)).trace ≤ 1) :=
  ⟨by decide, start_set_eq_membership (envOk RunMode.phish false) (by decide) Service.Admin⟩

/-! ## Startup failures -/

/-- C3: when `config.LoadConfig` returns an error, whatever the mode and the
mailer flag, the run ends in `log.Fatal`, `UnlockAllMailLogs` is never called
and `Start` is launched on no service; the last call is the `Fatal` with the
configuration error. -/
theorem config_error_is_fatal (env : Env) (err : String)
    (h : env.loadConfig = Except.error err) :
    (main env).outcome = Outcome.fatal ∧
    Event.UnlockAllMailLogs ∉ (main env).trace ∧
    (∀ s, Event.Start s ∉ (main env).trace) ∧
    (∀ version, env.readVersion = Except.ok version →
      (main env).trace = [Event.ReadFile "./VERSION", Event.KingpinVersion version,
        Event.HelpFlagShort 'h', Event.KingpinParse, Event.LoadConfig env.configPath,
        Event.Fatal err]) := by
  obtain ⟨cp, dm, m, rv, lc, ls, ms, ul, n, se, dw, sx⟩ := env
  simp only at h
  subst h
  rcases rv with e | v <;> simp [main, fatal]

theorem config_error_is_fatal_witness :
    (main (envNoConfig RunMode.all true)).outcome = Outcome.fatal ∧
    Event.UnlockAllMailLogs ∉ (main (envNoConfig RunMode.all true)).trace ∧
    Event.Start Service.Admin ∉ (main (envNoConfig RunMode.all true)).trace ∧
    (main (envNoConfig RunMode.all true)).trace =
      [Event.ReadFile "./VERSION", Event.KingpinVersion "0.12.1", Event.HelpFlagShort 'h',
        Event.KingpinParse, Event.LoadConfig "./config.json",
        Event.Fatal "open ./config.json: no such file or directory"] :=
  have h := config_error_is_fatal (envNoConfig RunMode.all true)
    "open ./config.json: no such file or directory" rfl
  ⟨h.1, h.2.1, h.2.2.1 Service.Admin, h.2.2.2 "0.12.1" rfl⟩

/-- C4: `UnlockAllMailLogs` is called at most once, every `Start` comes after
it and it is never called once a `Start` was launched; when it returns an
error the run ends in `log.Fatal` and `Start` is launched on no service. -/
theorem unlock_once_before_start (env : Env) :
    List.count Event.UnlockAllMailLogs (main env).trace ≤ 1 ∧
    precededBy Event.isUnlock Event.isStart (main env).trace = true ∧
    noneFrom Event.isUnlock Event.isStart (main env).trace = true ∧
    (∀ err, env.unlockAllMailLogs = some err →
      (main env).outcome = Outcome.fatal ∧ ∀ s, Event.Start s ∉ (main env).trace) := by
  obtain ⟨cp, dm, m, rv, lc, ls, ms, ul, n, se, dw, sx⟩ := env
  rcases rv with e | v
  · simp [main, fatal, precededBy, noneFrom, Event.isUnlock, Event.isStart]
  rcases lc with e | conf
  · simp [main, fatal, precededBy, noneFrom, Event.isUnlock, Event.isStart]
  by_cases hc : conf.ContactAddress = ""
  all_goals
    rcases ls with _ | e
    swap
    · simp [main, fatal, hc, precededBy, noneFrom, Event.isUnlock, Event.isStart]
    rcases ms with _ | e
    swap
    · simp [main, fatal, hc, precededBy, noneFrom, Event.isUnlock, Event.isStart]
    rcases ul with _ | e
    swap
    · simp [main, fatal, hc, precededBy, noneFrom, Event.isUnlock, Event.isStart]
    rw [main_launched]
    refine ⟨?_, precededBy_append_of_any _ _ _ _ ?_ ?_, noneFrom_append _ _ _ _ ?_ ?_, ?_⟩
    · simp only [List.count_append, count_afterLaunch _ Event.UnlockAllMailLogs rfl,
        Nat.add_zero]
      rcases dw with _ | w <;> cases m <;>
        simp [-List.count_eq_one_of_mem, launched, hc, startServers_all, startServers_admin,
          startServers_phish]
    · rcases dw with _ | w <;> cases m <;>
        simp [launched, hc, precededBy, Event.isUnlock, Event.isStart, startServers_all,
          startServers_admin, startServers_phish]
    · rcases dw with _ | w <;> cases m <;>
        simp [launched, hc, Event.isUnlock, startServers_all, startServers_admin,
          startServers_phish]
    · rcases dw with _ | w <;> cases m <;>
        simp [launched, hc, noneFrom, Event.isUnlock, Event.isStart, startServers_all,
          startServers_admin, startServers_phish]
    · intro e h
      have := mem_afterLaunch _ e h
      cases e <;> simp_all [Event.isAfterLaunch, Event.isUnlock]
    · simp

theorem unlock_once_before_start_witness :
    envUnlockFails.unlockAllMailLogs = some "database is locked" ∧
    (main envUnlockFails).outcome = Outcome.fatal ∧
    Event.Start Service.Phishing ∉ (main envUnlockFails).trace :=
  have h := (unlock_once_before_start envUnlockFails).2.2.2 "database is locked" rfl
  ⟨rfl, h.1, h.2 Service.Phishing⟩

/-! ## Outbound traffic restrictions -/

/-- C5: when the configuration loads, `dialer.SetAllowedHosts` is called
exactly once, with `conf.AdminConf.AllowedInternalHosts`, and
`webhook.SetTransport` exactly once, with the restricted dialer's
`DialContext`; no other call configures outbound traffic; the allowlist is
installed before the transport, and the transport before any service is
constructed or started. -/
theorem egress_guard_before_services (env : Env) (version : String) (conf : Config)
    (hv : env.readVersion = Except.ok version) (hl : env.loadConfig = Except.ok conf) :
    List.count (Event.SetAllowedHosts conf.AdminConf.AllowedInternalHosts)
      (main env).trace = 1 ∧
    List.count (Event.SetTransport DialContext.restricted) (main env).trace = 1 ∧
    List.countP Event.isEgress (main env).trace = 2 ∧
    precededBy (fun e => e == Event.SetAllowedHosts conf.AdminConf.AllowedInternalHosts)
      (fun e => e == Event.SetTransport DialContext.restricted) (main env).trace = true ∧
    precededBy (fun e => e == Event.SetTransport DialContext.restricted)
      (fun e => e.isStart || e.isNew) (main env).trace = true := by
  obtain ⟨cp, dm, m, rv, lc, ls, ms, ul, n, se, dw, sx⟩ := env
  simp only at hv hl
  subst hv hl
  by_cases hc : conf.ContactAddress = ""
  all_goals
    rcases ls with _ | e
    swap
    · simp [-List.count_eq_one_of_mem, main, fatal, hc, precededBy, Event.isEgress,
        Event.isStart, Event.isNew]
    rcases ms with _ | e
    swap
    · simp [-List.count_eq_one_of_mem, main, fatal, hc, precededBy, Event.isEgress,
        Event.isStart, Event.isNew]
    rcases ul with _ | e
    swap
    · simp [-List.count_eq_one_of_mem, main, fatal, hc, precededBy, Event.isEgress,
        Event.isStart, Event.isNew]
    rw [main_launched]
    have hE : List.countP Event.isEgress
        (afterLaunch ⟨cp, dm, m, Except.ok version, Except.ok conf, none, none, none, n, se,
          dw, sx⟩).trace = 0 := by
      rw [List.countP_eq_zero]
      intro e h
      have := mem_afterLaunch _ e h
      cases e <;> simp_all [Event.isAfterLaunch, Event.isEgress]
    refine ⟨?_, ?_, ?_, precededBy_append_of_any _ _ _ _ ?_ ?_,
      precededBy_append_of_any _ _ _ _ ?_ ?_⟩
    · simp only [List.count_append, count_afterLaunch _ (Event.SetAllowedHosts _) rfl,
        Nat.add_zero]
      rcases dw with _ | w <;> cases m <;>
        simp [-List.count_eq_one_of_mem, launched, hc, startServers_all, startServers_admin,
          startServers_phish]
    · simp only [List.count_append, count_afterLaunch _ (Event.SetTransport _) rfl,
        Nat.add_zero]
      rcases dw with _ | w <;> cases m <;>
        simp [-List.count_eq_one_of_mem, launched, hc, startServers_all, startServers_admin,
          startServers_phish]
    · simp only [List.countP_append, hE, Nat.add_zero]
      rcases dw with _ | w <;> cases m <;>
        simp [launched, hc, Event.isEgress, startServers_all, startServers_admin,
          startServers_phish]
    · rcases dw with _ | w <;> cases m <;>
        simp [launched, hc, precededBy, startServers_all, startServers_admin,
          startServers_phish]
    · rcases dw with _ | w <;> cases m <;>
        simp [launched, hc, startServers_all, startServers_admin, startServers_phish]
    · rcases dw with _ | w <;> cases m <;>
        simp [launched, hc, precededBy, Event.isStart, Event.isNew, startServers_all,
          startServers_admin, startServers_phish]
    · rcases dw with _ | w <;> cases m <;>
        simp [launched, hc, startServers_all, startServers_admin, startServers_phish]

theorem egress_guard_before_services_witness :
    List.count (Event.SetAllowedHosts ["10.0.0.5"]) (main (envOk RunMode.all false)).trace = 1 ∧
    List.count (Event.SetTransport DialContext.restricted)
      (main (envOk RunMode.all false)).trace = 1 ∧
    List.countP Event.isEgress (main (envOk RunMode.all false)).trace = 2 ∧
    precededBy (fun e => e == Event.SetAllowedHosts ["10.0.0.5"])
      (fun e => e == Event.SetTransport DialContext.restricted)
      (main (envOk RunMode.all false)).trace = true ∧
    precededBy (fun e => e == Event.SetTransport DialContext.restricted)
      (fun e => e.isStart || e.isNew) (main (envOk RunMode.all false)).trace = true :=
  egress_guard_before_services (envOk RunMode.all false) "0.12.1"
    ⟨⟨["10.0.0.5"], false⟩, "admin@example.com"⟩ rfl rfl

/-! ## Construction of the service handles -/

/-- C7, as stated, fails: in mode `phish` the admin server and the monitor
are constructed although the mode does not include them, and in mode `admin`
the phishing server is constructed. -/
theorem constructed_outside_mode :
    ((main (envOk RunMode.phish false)).trace.any (Event.isNewOf Service.Admin) = true ∧
      Service.Admin ∉ specMembership RunMode.phish) ∧
    ((main (envOk RunMode.phish false)).trace.any (Event.isNewOf Service.Monitor) = true ∧
      Service.Monitor ∉ specMembership RunMode.phish) ∧
    ((main (envOk RunMode.admin false)).trace.any (Event.isNewOf Service.Phishing) = true ∧
      Service.Phishing ∉ specMembership RunMode.admin) := by
  decide

/-- C7, amended: when startup succeeds, each of the three service handles is
constructed exactly once whatever the mode, before any `Start`; the mode only
decides which services are started and shut down: a service outside the
mode is constructed but neither started nor shut down. -/
theorem constructed_in_every_mode (env : Env) (hs : env.startupOk = true) (s : Service) :
    List.countP (Event.isNewOf s) (main env).trace = 1 ∧
    noneFrom Event.isNew Event.isStart (main env).trace = true ∧
    (s ∉ specMembership env.mode →
      Event.Start s ∉ (main env).trace ∧ Event.Shutdown s ∉ (main env).trace) := by
  obtain ⟨cp, dm, m, rv, lc, ls, ms, ul, n, se, dw, sx⟩ := env
  rcases rv with e | v
  · simp [Env.startupOk] at hs
  rcases lc with e | conf
  · simp [Env.startupOk] at hs
  rcases ls with _ | e
  swap
  · simp [Env.startupOk] at hs
  rcases ms with _ | e
  swap
  · simp [Env.startupOk] at hs
  rcases ul with _ | e
  swap
  · simp [Env.startupOk] at hs
  rw [main_launched]
  have hN : List.countP (Event.isNewOf s)
      (afterLaunch ⟨cp, dm, m, Except.ok v, Except.ok conf, none, none, none, n, se, dw,
        sx⟩).trace = 0 := by
    rw [List.countP_eq_zero]
    intro e h
    have := mem_afterLaunch _ e h
    cases e <;> cases s <;> simp_all [Event.isAfterLaunch, Event.isNewOf]
  refine ⟨?_, noneFrom_append _ _ _ _ ?_ ?_, fun hout => ⟨?_, ?_⟩⟩
  · simp only [List.countP_append, hN, Nat.add_zero]
    by_cases hc : conf.ContactAddress = "" <;> rcases dw with _ | w <;> cases m <;> cases s <;>
      simp [launched, hc, Event.isNewOf, startServers_all, startServers_admin,
        startServers_phish]
  · by_cases hc : conf.ContactAddress = "" <;> rcases dw with _ | w <;> cases m <;>
      simp [launched, hc, noneFrom, Event.isNew, Event.isStart, startServers_all,
        startServers_admin, startServers_phish]
  · intro e h
    have := mem_afterLaunch _ e h
    cases e <;> simp_all [Event.isAfterLaunch, Event.isNew]
  · intro h
    rcases List.mem_append.1 h with h | h
    · exact hout ((start_mem_launched_iff _ _ _ _ _ _ s).1 h)
    · exact not_mem_afterLaunch _ (Event.Start s) rfl h
  · intro h
    rcases List.mem_append.1 h with h | h
    · exact Bool.noConfusion (mem_launched _ _ _ _ _ _ _ h)
    · exact hout ((shutdownServers_mem_iff _ _).1 (shutdown_mem_afterLaunch _ s h))

theorem constructed_in_every_mode_witness :
    List.countP (Event.isNewOf Service.Admin) (main (envOk RunMode.phish false)).trace = 1 ∧
    Event.Start Service.Admin ∉ (main (envOk RunMode.phish false)).trace ∧
    Event.Shutdown Service.Admin ∉ (main (envOk RunMode.phish false)).trace :=
  have h := constructed_in_every_mode (envOk RunMode.phish false) (by decide) Service.Admin
  ⟨h.1, h.2.2 (by decide)⟩

/-! ## Contact address -/

/-- C10: when the configuration loads, `main` logs a warning exactly when
`conf.ContactAddress` is empty, and apart from the warnings the run is the
same whatever the contact address is: same calls in the same order, same
end. -/
theorem contact_warning (env : Env) (version : String) (conf : Config)
    (hv : env.readVersion = Except.ok version) (hl : env.loadConfig = Except.ok conf) :
    ((∃ msg, Event.Warnf msg ∈ (main env).trace) ↔ conf.ContactAddress = "") ∧
    (∀ contact : String,
      (main { env with
          loadConfig := Except.ok { conf with ContactAddress := contact } }).trace.filter
          (fun e => !e.isWarnf) =
        (main env).trace.filter (fun e => !e.isWarnf) ∧
      (main { env with
          loadConfig := Except.ok { conf with ContactAddress := contact } }).outcome =
        (main env).outcome) := by
  obtain ⟨cp, dm, m, rv, lc, ls, ms, ul, n, se, dw, sx⟩ := env
  simp only at hv hl
  subst hv hl
  refine ⟨?_, fun contact => ?_⟩
  · by_cases hc : conf.ContactAddress = ""
    all_goals
      rcases ls with _ | e
      swap
      · simp [main, fatal, hc]
      rcases ms with _ | e
      swap
      · simp [main, fatal, hc]
      rcases ul with _ | e
      swap
      · simp [main, fatal, hc]
      rw [main_launched]
      have hW : ∀ msg, Event.Warnf msg ∉
          (afterLaunch ⟨cp, dm, m, Except.ok version, Except.ok conf, none, none, none, n, se,
            dw, sx⟩).trace := fun msg => not_mem_afterLaunch _ _ rfl
      simp only [List.mem_append, hW, or_false]
      rcases dw with _ | w <;> cases m <;>
        simp [launched, hc, startServers_all, startServers_admin, startServers_phish]
  · dsimp only
    by_cases hc : conf.ContactAddress = "" <;> by_cases hc2 : contact = ""
    all_goals
      rcases ls with _ | e
      swap
      · simp [main, fatal, hc, hc2, Event.isWarnf]
      rcases ms with _ | e
      swap
      · simp [main, fatal, hc, hc2, Event.isWarnf]
      rcases ul with _ | e
      swap
      · simp [main, fatal, hc, hc2, Event.isWarnf]
      rw [main_launched, main_launched]
      refine ⟨?_, rfl⟩
      simp only [List.filter_append]
      congr 1
      rcases dw with _ | w <;> cases m <;>
        simp [launched, hc, hc2, Event.isWarnf, startServers_all, startServers_admin,
          startServers_phish]

theorem contact_warning_witness :
    ((∃ msg, Event.Warnf msg ∈ (main (envOk RunMode.all false)).trace) ↔
      "admin@example.com" = "") ∧
    (main { envOk RunMode.all false with
        loadConfig := Except.ok
          { (⟨⟨["10.0.0.5"], false⟩, "admin@example.com"⟩ : Config) with
            ContactAddress := "" } }).trace.filter (fun e => !e.isWarnf) =
      (main (envOk RunMode.all false)).trace.filter (fun e => !e.isWarnf) :=
  have h := contact_warning (envOk RunMode.all false) "0.12.1"
    ⟨⟨["10.0.0.5"], false⟩, "admin@example.com"⟩ rfl rfl
  ⟨h.1, (h.2 "").1⟩

/-! ## Shutdown -/

end Gophish
